import Mathlib

/-!
Verification of the bookmark synchronization core: a shallow embedding of
the client-side hooks (`useBookmarks`, `useBookmarkCounts`,
`useRealtimeBookmarks`, `useCollections`) and of the add-bookmark submit
path, with theorems settling the spec claims about bucket semantics,
optimistic mutations, count aggregation, the change-feed supervisor and
collection deletion.
-/

namespace BM

/-- A bookmark row, as in `utils/types` / the `bookmarks` table: id, owner,
title, url, optional collection, favorite and soft-delete flags, deletion
timestamp, creation timestamp (modelled as a `Nat` tick for ordering). -/
structure Bmk where
  id : String
  user_id : String
  title : String
  url : String
  collection_id : Option String
  is_favorite : Bool
  is_deleted : Bool
  deleted_at : Option String
  created_at : Nat
deriving DecidableEq, Repr

/-- The `BookmarkFilter` of `useBookmarks.ts`: the string union
`all | favorites | recent | trash | <collection uuid>`, embedded as the
tagged variant its exhaustive `switch` dispatches on (the `default` branch
is the collection case). -/
inductive BookmarkFilter where
  | all
  | favorites
  | recent
  | trash
  | collection (cid : String)
deriving DecidableEq, Repr

/-- The row predicate accumulated by `fetchBookmarks` via `.eq` calls:
always `user_id = uid`, then per bucket exactly the `.eq` filters of the
`switch` in `useBookmarks.ts`. -/
def filterPred (uid : String) (f : BookmarkFilter) (b : Bmk) : Bool :=
  b.user_id == uid &&
    match f with
    | .all => b.is_deleted == false
    | .favorites => b.is_deleted == false && b.is_favorite == true
    | .recent => b.is_deleted == false
    | .trash => b.is_deleted == true
    | .collection cid => b.is_deleted == false && b.collection_id == some cid

/-- `order by created_at descending`, as a Boolean comparator. -/
def byCreatedDesc (a b : Bmk) : Bool := decide (b.created_at ≤ a.created_at)

/-- Insert a row into a list kept in `created_at` descending order. -/
def insertByCreatedDesc (b : Bmk) : List Bmk → List Bmk
  | [] => [b]
  | a :: t => if byCreatedDesc a b then a :: insertByCreatedDesc b t else b :: a :: t

/-- The store ordering rows by `created_at` descending (insertion sort,
so the model stays executable). -/
def sortByCreatedDesc : List Bmk → List Bmk
  | [] => []
  | a :: t => insertByCreatedDesc a (sortByCreatedDesc t)

/-- The remote store executing the query built by `fetchBookmarks`: filter
the table by the accumulated predicate, order by `created_at` descending
(every bucket orders this way; `recent` sets it inside the switch, the
others right after), and apply `limit(10)` only for `recent`. -/
def runQuery (db : List Bmk) (uid : String) (f : BookmarkFilter) : List Bmk :=
  let rows := sortByCreatedDesc (db.filter (filterPred uid f))
  match f with
  | .recent => rows.take 10
  | _ => rows

lemma mem_insertByCreatedDesc {x b : Bmk} {l : List Bmk} :
    x ∈ insertByCreatedDesc b l ↔ x = b ∨ x ∈ l := by
  induction l with
  | nil => simp [insertByCreatedDesc]
  | cons a t ih =>
    by_cases h : byCreatedDesc a b = true
    · simp only [insertByCreatedDesc]
      rw [if_pos h]
      simp only [List.mem_cons, ih]
      tauto
    · simp only [insertByCreatedDesc]
      rw [if_neg h]
      simp only [List.mem_cons]

lemma mem_sortByCreatedDesc {x : Bmk} {l : List Bmk} :
    x ∈ sortByCreatedDesc l ↔ x ∈ l := by
  induction l with
  | nil => simp [sortByCreatedDesc]
  | cons a t ih => simp [sortByCreatedDesc, mem_insertByCreatedDesc, ih]

lemma pairwise_insertByCreatedDesc (b : Bmk) (l : List Bmk)
    (hl : l.Pairwise (fun x y => y.created_at ≤ x.created_at)) :
    (insertByCreatedDesc b l).Pairwise (fun x y => y.created_at ≤ x.created_at) := by
  induction l with
  | nil => simp [insertByCreatedDesc]
  | cons a t ih =>
    rw [List.pairwise_cons] at hl
    by_cases h : byCreatedDesc a b = true
    · have hba : b.created_at ≤ a.created_at := by
        simpa [byCreatedDesc] using h
      rw [insertByCreatedDesc, if_pos h, List.pairwise_cons]
      refine ⟨?_, ih hl.2⟩
      intro x hx
      rcases mem_insertByCreatedDesc.mp hx with rfl | hxt
      · exact hba
      · exact hl.1 x hxt
    · have hab : a.created_at ≤ b.created_at := by
        have := lt_of_not_le (by simpa [byCreatedDesc] using h)
        exact le_of_lt this
      rw [insertByCreatedDesc, if_neg h, List.pairwise_cons]
      refine ⟨?_, List.pairwise_cons.mpr hl⟩
      intro x hx
      rcases List.mem_cons.mp hx with rfl | hxt
      · exact hab
      · exact le_trans (hl.1 x hxt) hab

lemma pairwise_sortByCreatedDesc (l : List Bmk) :
    (sortByCreatedDesc l).Pairwise (fun x y => y.created_at ≤ x.created_at) := by
  induction l with
  | nil => simp [sortByCreatedDesc]
  | cons a t ih => exact pairwise_insertByCreatedDesc a (sortByCreatedDesc t) ih

lemma runQuery_sublist_sorted (db : List Bmk) (uid : String) (f : BookmarkFilter) :
    (runQuery db uid f).Sublist (sortByCreatedDesc (db.filter (filterPred uid f))) := by
  cases f <;> simp [runQuery, List.take_sublist, List.Sublist.refl]

lemma mem_runQuery (db : List Bmk) (uid : String) (f : BookmarkFilter) (b : Bmk)
    (hb : b ∈ runQuery db uid f) : b ∈ db ∧ filterPred uid f b = true := by
  have h : b ∈ sortByCreatedDesc (db.filter (filterPred uid f)) :=
    (runQuery_sublist_sorted db uid f).mem hb
  rw [mem_sortByCreatedDesc, List.mem_filter] at h
  exact h

/-- **C1.** For every bucket, a successful load returns exactly the rows
satisfying that bucket's membership predicate (soundness always;
completeness for every bucket except `recent`), ordered by `created_at`
descending, and for `recent` at most 10 rows. -/
theorem load_bucket_semantics (db : List Bmk) (uid : String) (f : BookmarkFilter) :
    (∀ b ∈ runQuery db uid f, filterPred uid f b = true)
    ∧ List.Pairwise (fun a b => b.created_at ≤ a.created_at) (runQuery db uid f)
    ∧ (f = BookmarkFilter.recent → (runQuery db uid f).length ≤ 10)
    ∧ (f ≠ BookmarkFilter.recent →
        ∀ b ∈ db, filterPred uid f b = true → b ∈ runQuery db uid f) := by
  refine ⟨fun b hb => (mem_runQuery db uid f b hb).2, ?_, ?_, ?_⟩
  · exact List.Pairwise.sublist (runQuery_sublist_sorted db uid f)
      (pairwise_sortByCreatedDesc _)
  · intro hf
    subst hf
    simp only [runQuery]
    exact List.length_take_le 10 _
  · intro hf b hbdb hbp
    have hmem : b ∈ sortByCreatedDesc (db.filter (filterPred uid f)) := by
      rw [mem_sortByCreatedDesc, List.mem_filter]
      exact ⟨hbdb, hbp⟩
    cases f with
    | recent => exact absurd rfl hf
    | all => simpa [runQuery] using hmem
    | favorites => simpa [runQuery] using hmem
    | trash => simpa [runQuery] using hmem
    | collection cid => simpa [runQuery] using hmem

/-- Concrete row used to instantiate theorems with hypotheses. -/
def wRow : Bmk :=
  { id := "b1", user_id := "u", title := "t", url := "https://e.com",
    collection_id := none, is_favorite := true, is_deleted := false,
    deleted_at := none, created_at := 5 }

theorem load_bucket_semantics_witness :
    (runQuery [wRow] "u" BookmarkFilter.recent).length ≤ 10 :=
  (load_bucket_semantics [wRow] "u" BookmarkFilter.recent).2.2.1 rfl

/-! ### Trash transitions (`moveToTrash` / `restoreFromTrash`) -/

/-- The single update payload issued by `moveToTrash`:
`is_deleted := true` together with a fresh non-null `deleted_at`. -/
def moveToTrashUpdate (now : String) (b : Bmk) : Bmk :=
  { b with is_deleted := true, deleted_at := some now }

/-- The single update payload issued by `restoreFromTrash`:
`is_deleted := false` together with `deleted_at := null`. -/
def restoreFromTrashUpdate (b : Bmk) : Bmk :=
  { b with is_deleted := false, deleted_at := none }

/-- The store applying an `update(...).eq(id, ...)` mutation to a table. -/
def applyUpdate (db : List Bmk) (id : String) (u : Bmk → Bmk) : List Bmk :=
  db.map (fun b => if b.id == id then u b else b)

/-- The maintained correspondence: `deleted_at` is non-null iff
`is_deleted` is true. -/
def trashConsistent (b : Bmk) : Prop := b.deleted_at.isSome = b.is_deleted

instance (b : Bmk) : Decidable (trashConsistent b) := by
  unfold trashConsistent; infer_instance

/-- **C9.** Both trash transitions set the flag and the timestamp in the
same update, so the correspondence `deleted_at non-null iff is_deleted`
is preserved across the whole table, and the touched row carries exactly
the claimed field values. -/
theorem trash_transitions_maintain_deleted_at (db : List Bmk) (id now : String)
    (hinv : ∀ b ∈ db, trashConsistent b) :
    (∀ b ∈ applyUpdate db id (moveToTrashUpdate now), trashConsistent b)
    ∧ (∀ b ∈ applyUpdate db id (moveToTrashUpdate now), b.id = id →
        b.is_deleted = true ∧ b.deleted_at = some now)
    ∧ (∀ b ∈ applyUpdate db id restoreFromTrashUpdate, trashConsistent b)
    ∧ (∀ b ∈ applyUpdate db id restoreFromTrashUpdate, b.id = id →
        b.is_deleted = false ∧ b.deleted_at = none) := by
  refine ⟨?_, ?_, ?_, ?_⟩ <;> intro b hb
  · rcases List.mem_map.mp hb with ⟨a, ha, rfl⟩
    by_cases h : a.id == id
    · simp [h, moveToTrashUpdate, trashConsistent]
    · simpa [h] using hinv a ha
  · rcases List.mem_map.mp hb with ⟨a, ha, rfl⟩
    by_cases h : a.id == id
    · intro _; simp [h, moveToTrashUpdate]
    · intro hid
      exfalso
      simp only [h, if_false] at hid
      exact absurd (beq_iff_eq.mpr hid) (by simpa using h)
  · rcases List.mem_map.mp hb with ⟨a, ha, rfl⟩
    by_cases h : a.id == id
    · simp [h, restoreFromTrashUpdate, trashConsistent]
    · simpa [h] using hinv a ha
  · rcases List.mem_map.mp hb with ⟨a, ha, rfl⟩
    by_cases h : a.id == id
    · intro _; simp [h, restoreFromTrashUpdate]
    · intro hid
      exfalso
      simp only [h, if_false] at hid
      exact absurd (beq_iff_eq.mpr hid) (by simpa using h)

theorem trash_transitions_witness :
    (moveToTrashUpdate "T1" wRow).is_deleted = true
    ∧ (moveToTrashUpdate "T1" wRow).deleted_at = some "T1" :=
  (trash_transitions_maintain_deleted_at [wRow] "b1" "T1" (by decide)).2.1
    (moveToTrashUpdate "T1" wRow) (by decide) (by decide)

/-! ### Collection deletion (`useCollections.deleteCollection`) -/

/-- A collection row, as in the `collections` table. -/
structure Collection where
  id : String
  user_id : String
  name : String
  position : Nat
deriving DecidableEq, Repr

/-- The remote store slice touched by collection deletion. -/
structure Store where
  bookmarks : List Bmk
  collections : List Collection
deriving DecidableEq, Repr

/-- The two gateway mutations `deleteCollection` issues, as operations. -/
inductive CollectionOp where
  | nullifyMembers (cid uid : String)
  | deleteRow (cid uid : String)
deriving DecidableEq, Repr

/-- Store semantics of each mutation: the bulk
`update(collection_id := null).eq(collection_id, cid).eq(user_id, uid)`
and the row `delete().eq(id, cid).eq(user_id, uid)`. -/
def applyCollectionOp (s : Store) : CollectionOp → Store
  | .nullifyMembers cid uid =>
      { s with bookmarks := s.bookmarks.map (fun b =>
          if b.collection_id == some cid && b.user_id == uid
          then { b with collection_id := none } else b) }
  | .deleteRow cid uid =>
      { s with collections :=
          s.collections.filter (fun c => !(c.id == cid && c.user_id == uid)) }

/-- The mutation trace of `deleteCollection`, in issue order: nullify the
members first, then delete the collection row. -/
def deleteCollectionOps (cid uid : String) : List CollectionOp :=
  [CollectionOp.nullifyMembers cid uid, CollectionOp.deleteRow cid uid]

/-- Effect of `deleteCollection` on the store: its mutation trace applied
in order. -/
def deleteCollection (s : Store) (cid uid : String) : Store :=
  (deleteCollectionOps cid uid).foldl applyCollectionOp s

/-- **C8.** `deleteCollection` issues the bulk reassign strictly before the
row delete, and afterwards no bookmark of the user still points at the
collection, every former member survives with `collection_id = null`, and
the collection id no longer resolves. -/
theorem deleteCollection_nullify_before_delete (s : Store) (cid uid : String) :
    deleteCollectionOps cid uid =
      [CollectionOp.nullifyMembers cid uid, CollectionOp.deleteRow cid uid]
    ∧ (∀ b ∈ (deleteCollection s cid uid).bookmarks,
        b.user_id = uid → b.collection_id ≠ some cid)
    ∧ (∀ b ∈ s.bookmarks, b.collection_id = some cid → b.user_id = uid →
        ∃ b2 ∈ (deleteCollection s cid uid).bookmarks,
          b2.id = b.id ∧ b2.collection_id = none)
    ∧ (∀ c ∈ (deleteCollection s cid uid).collections,
        ¬(c.id = cid ∧ c.user_id = uid)) := by
  refine ⟨rfl, ?_, ?_, ?_⟩
  · intro b hb huid hcid
    simp only [deleteCollection, deleteCollectionOps, List.foldl,
      applyCollectionOp] at hb
    rcases List.mem_map.mp hb with ⟨a, _, rfl⟩
    by_cases h : (a.collection_id == some cid && a.user_id == uid) = true
    · rw [if_pos h] at hcid
      simp at hcid
    · rw [if_neg h] at hcid huid
      exact h (by simp [hcid, huid])
  · intro b hb hcid huid
    refine ⟨{ b with collection_id := none }, ?_, rfl, rfl⟩
    simp only [deleteCollection, deleteCollectionOps, List.foldl,
      applyCollectionOp]
    refine List.mem_map.mpr ⟨b, hb, ?_⟩
    simp [hcid, huid]
  · intro c hc
    simp only [deleteCollection, deleteCollectionOps, List.foldl,
      applyCollectionOp] at hc
    rcases List.mem_filter.mp hc with ⟨_, hcond⟩
    rintro ⟨rfl, rfl⟩
    simp at hcond

/-- Concrete member row and store for instantiating collection theorems. -/
def wMember : Bmk := { wRow with id := "b2", collection_id := some "c1" }

def wStore : Store :=
  { bookmarks := [wMember],
    collections := [{ id := "c1", user_id := "u", name := "work", position := 0 }] }

theorem deleteCollection_witness :
    ({ wMember with collection_id := none } : Bmk).id = wMember.id
    ∧ ({ wMember with collection_id := none } : Bmk).collection_id = none := by
  have h := (deleteCollection_nullify_before_delete wStore "c1" "u").2.2.1
    wMember (by decide) (by decide) (by decide)
  rcases h with ⟨b2, hb2, hid, hnone⟩
  have hb2eq : b2 = { wMember with collection_id := none } := by
    have : (deleteCollection wStore "c1" "u").bookmarks =
        [{ wMember with collection_id := none }] := by decide
    rw [this] at hb2
    simpa using hb2
  subst hb2eq
  exact ⟨hid, hnone⟩

/-! ### Count aggregation (`useBookmarkCounts.fetchCounts`) -/

set_option linter.unusedVariables false

/-- The four-bucket counts tuple. -/
structure BookmarkCounts where
  all : Nat
  favorites : Nat
  recent : Nat
  trash : Nat
deriving DecidableEq, Repr

/-- `fetchCounts` as the code computes the new tuple from the three count
query responses (`none` models a failed query, whose `count` comes back
null): each bucket is null-coalesced to 0 via `?? 0`, `recent` is
`min(allCount, 10)`, and the tuple is written in one `setCounts` call.
`prev` is the previously held tuple, which the code never reads. -/
def fetchCounts (prev : BookmarkCounts)
    (allCount favCount trashCount : Option Nat) : BookmarkCounts :=
  { all := allCount.getD 0,
    favorites := favCount.getD 0,
    recent := min (allCount.getD 0) 10,
    trash := trashCount.getD 0 }

/-- **C6 counterexample.** With prior counts (5, 3, 5, 1) and a failed
favorites count query, the refresh is not treated as failed: the prior
tuple is not retained, and 0 is substituted for the failed count. -/
theorem counts_failed_query_not_retained :
    fetchCounts ⟨5, 3, 5, 1⟩ (some 5) none (some 1) ≠ ⟨5, 3, 5, 1⟩
    ∧ (fetchCounts ⟨5, 3, 5, 1⟩ (some 5) none (some 1)).favorites = 0 := by
  decide

/-- **C6 amended.** The refresh replaces the tuple atomically in a single
assignment and never reads the previously held counts (the new tuple is
independent of them); a failed individual count query contributes 0 for
its bucket instead of aborting the refresh, and `recent` is
`min(all, 10)`. -/
theorem counts_refresh_zero_fallback
    (prev prev2 : BookmarkCounts) (a f t : Option Nat) :
    fetchCounts prev a f t = fetchCounts prev2 a f t
    ∧ (fetchCounts prev none f t).all = 0
    ∧ (fetchCounts prev a none t).favorites = 0
    ∧ (fetchCounts prev a f none).trash = 0
    ∧ (fetchCounts prev a f t).recent = min (fetchCounts prev a f t).all 10 := by
  simp [fetchCounts]

/-! ### Favorite toggling (`useBookmarks.toggleFavorite`) -/

/-- Result record of a mutation: success flag plus optional error. -/
structure MutationResult where
  success : Bool
  error : Option String
deriving DecidableEq, Repr

/-- A network request issued to the remote store, for tracking that (and
which) gateway calls a hook operation makes. -/
inductive GatewayCall where
  | updateFavorite (id : String) (value : Bool)
  | insertBookmark (title url : String) (collectionField : Option (Option String))
deriving DecidableEq, Repr

/-- `state.bookmarks.find((b) => b.id === id)`. -/
def findBmk (l : List Bmk) (id : String) : Option Bmk :=
  l.find? (fun b => b.id == id)

/-- The `setState` map of `toggleFavorite`: set `is_favorite` to `v` on
every row whose id matches (used for the optimistic flip and, with the
negated value, for the revert). -/
def toggleOptimistic (l : List Bmk) (id : String) (v : Bool) : List Bmk :=
  l.map (fun b => if b.id == id then { b with is_favorite := v } else b)

/-- `toggleFavorite` end to end for a given gateway outcome
(`gatewayErr = some msg` models the update call failing with `msg`):
look the row up in the local list only; when absent, fail without issuing
any call; otherwise apply the optimistic flip, issue the update, revert
the flip on failure, and on success drop the row when the active filter
is `favorites` and the new state is unfavorited. Returns the final local
list, the mutation result, and the list of gateway calls issued. -/
def toggleFavorite (filter : BookmarkFilter) (bookmarks : List Bmk) (id : String)
    (gatewayErr : Option String) : List Bmk × MutationResult × List GatewayCall :=
  match findBmk bookmarks id with
  | none => (bookmarks, { success := false, error := some "Bookmark not found" }, [])
  | some current =>
    let newValue := !current.is_favorite
    let optimistic := toggleOptimistic bookmarks id newValue
    match gatewayErr with
    | some msg =>
        (toggleOptimistic optimistic id (!newValue),
         { success := false, error := some msg },
         [GatewayCall.updateFavorite id newValue])
    | none =>
        let afterRemoval :=
          if filter == BookmarkFilter.favorites && !newValue
          then optimistic.filter (fun b => !(b.id == id))
          else optimistic
        (afterRemoval, { success := true, error := none },
         [GatewayCall.updateFavorite id newValue])

lemma toggleOptimistic_revert (l : List Bmk) (id : String) (v : Bool)
    (h : ∀ b ∈ l, b.id = id → b.is_favorite = v) :
    toggleOptimistic (toggleOptimistic l id (!v)) id v = l := by
  unfold toggleOptimistic
  rw [List.map_map]
  have hpt : ∀ b ∈ l,
      ((fun b => if b.id == id then { b with is_favorite := v } else b) ∘
        (fun b => if b.id == id then { b with is_favorite := !v } else b)) b =
        (fun b => b) b := by
    intro b hb
    by_cases hbid : (b.id == id) = true
    · have hv : b.is_favorite = v := h b hb (beq_iff_eq.mp hbid)
      simp only [Function.comp_apply, hbid, if_true]
      show { b with is_favorite := v } = b
      rw [← hv]
    · simp only [Function.comp_apply]
      rw [if_neg hbid, if_neg hbid]
  rw [List.map_congr_left hpt, List.map_id']

lemma findBmk_mem_id (l : List Bmk) (id : String) (cur : Bmk)
    (h : findBmk l id = some cur) : cur ∈ l ∧ cur.id = id := by
  unfold findBmk at h
  exact ⟨List.mem_of_find?_eq_some h, by simpa using List.find?_some h⟩

lemma mem_toggleOptimistic (l : List Bmk) (id : String) (v : Bool) (b : Bmk)
    (hb : b ∈ toggleOptimistic l id v) (hid : b.id = id) : b.is_favorite = v := by
  rcases List.mem_map.mp hb with ⟨a, _, rfl⟩
  by_cases ha : (a.id == id) = true
  · rw [if_pos ha]
  · rw [if_neg ha] at hid ⊢
    exact absurd (beq_iff_eq.mpr hid) ha

/-- **C3.** For a bookmark present in the local list (every row carrying
its id holds the same pre-toggle value, as when ids are unique): on
gateway success every row with that id in the final list holds the
negation of the pre-toggle value; on gateway failure the final list is
exactly the pre-toggle list (the optimistic flip is reverted exactly) and
the call returns success = false carrying the gateway message. -/
theorem toggleFavorite_flip_and_exact_revert
    (filter : BookmarkFilter) (bookmarks : List Bmk) (id : String) (cur : Bmk)
    (hfind : findBmk bookmarks id = some cur)
    (huniq : ∀ b ∈ bookmarks, b.id = id → b.is_favorite = cur.is_favorite) :
    (∀ b ∈ (toggleFavorite filter bookmarks id none).1, b.id = id →
        b.is_favorite = !cur.is_favorite)
    ∧ (∀ msg, (toggleFavorite filter bookmarks id (some msg)).1 = bookmarks
        ∧ (toggleFavorite filter bookmarks id (some msg)).2.1 =
            { success := false, error := some msg }) := by
  constructor
  · intro b hb hbid
    simp only [toggleFavorite, hfind] at hb
    by_cases hrem : (filter == BookmarkFilter.favorites && !!cur.is_favorite) = true
    · rw [if_pos hrem] at hb
      exact mem_toggleOptimistic bookmarks id _ b (List.mem_filter.mp hb).1 hbid
    · rw [if_neg hrem] at hb
      exact mem_toggleOptimistic bookmarks id _ b hb hbid
  · intro msg
    constructor
    · simp only [toggleFavorite, hfind]
      rw [Bool.not_not]
      exact toggleOptimistic_revert bookmarks id cur.is_favorite huniq
    · simp [toggleFavorite, hfind]

theorem toggleFavorite_witness :
    (toggleFavorite BookmarkFilter.all [wRow] "b1" (some "boom")).1 = [wRow]
    ∧ (toggleFavorite BookmarkFilter.all [wRow] "b1" (some "boom")).2.1 =
        { success := false, error := some "boom" } :=
  (toggleFavorite_flip_and_exact_revert BookmarkFilter.all [wRow] "b1" wRow
    (by decide) (by decide)).2 "boom"

/-- **C5 counterexample.** In the `favorites` view, unfavoriting `wRow`
does not remove it during the optimistic phase (the first `setState` only
flips the flag), and when the gateway then fails the row is still in the
list — removal is contingent on the gateway confirming success, so it is
not synchronous with the toggle's optimistic phase. -/
theorem favorites_removal_not_optimistic_cex :
    (toggleOptimistic [wRow] "b1" false).any (fun b => b.id == "b1") = true
    ∧ ((toggleFavorite BookmarkFilter.favorites [wRow] "b1" (some "net down")).1.any
        (fun b => b.id == "b1")) = true := by
  decide

/-- **C5 amended.** In the `favorites` view, unfavoriting a row present in
the list removes it only after (and contingent on) the gateway confirming
the update: on success no row with that id remains; on failure the row is
still present, carrying its pre-toggle value. -/
theorem favorites_removal_after_confirmation
    (bookmarks : List Bmk) (id : String) (cur : Bmk)
    (hfind : findBmk bookmarks id = some cur)
    (hfav : cur.is_favorite = true) :
    (toggleFavorite BookmarkFilter.favorites bookmarks id none).1.all
        (fun b => !(b.id == id)) = true
    ∧ (∀ msg,
        (toggleFavorite BookmarkFilter.favorites bookmarks id (some msg)).1.any
          (fun b => b.id == id && b.is_favorite == cur.is_favorite) = true) := by
  constructor
  · rw [List.all_eq_true]
    intro b hb
    simp only [toggleFavorite, hfind, hfav] at hb
    rw [if_pos (by simp)] at hb
    exact (List.mem_filter.mp hb).2
  · intro msg
    rw [List.any_eq_true]
    have hcur : cur ∈ bookmarks := (findBmk_mem_id bookmarks id cur hfind).1
    have hcid : cur.id = id := (findBmk_mem_id bookmarks id cur hfind).2
    refine ⟨{ cur with is_favorite := !!cur.is_favorite }, ?_, ?_⟩
    · simp only [toggleFavorite, hfind]
      unfold toggleOptimistic
      rw [List.map_map]
      refine List.mem_map.mpr ⟨cur, hcur, ?_⟩
      simp only [Function.comp_apply, beq_iff_eq.mpr hcid, if_true]
    · simp [hcid, Bool.not_not]

theorem favorites_removal_after_confirmation_witness :
    (toggleFavorite BookmarkFilter.favorites [wRow] "b1" none).1.all
        (fun b => !(b.id == "b1")) = true
    ∧ (toggleFavorite BookmarkFilter.favorites [wRow] "b1" (some "boom")).1.any
        (fun b => b.id == "b1" && b.is_favorite == wRow.is_favorite) = true :=
  ⟨(favorites_removal_after_confirmation [wRow] "b1" wRow (by decide) (by decide)).1,
   (favorites_removal_after_confirmation [wRow] "b1" wRow (by decide) (by decide)).2 "boom"⟩

/-- **C10.** When no row with the requested id is in the local list, the
toggle fails with the not-found message, issues no gateway call, and
leaves the list untouched — for every possible gateway outcome and even
when a row with that id exists in the remote store (the check reads only
the local list). -/
theorem toggleFavorite_not_found_local
    (filter : BookmarkFilter) (bookmarks remoteDb : List Bmk) (id : String)
    (gatewayErr : Option String)
    (hfind : findBmk bookmarks id = none)
    (hremote : ∃ b ∈ remoteDb, b.id = id) :
    toggleFavorite filter bookmarks id gatewayErr =
      (bookmarks, { success := false, error := some "Bookmark not found" }, []) := by
  simp [toggleFavorite, hfind]

theorem toggleFavorite_not_found_witness :
    toggleFavorite BookmarkFilter.all [] "b1" none =
      ([], { success := false, error := some "Bookmark not found" }, []) :=
  toggleFavorite_not_found_local BookmarkFilter.all [] [wRow] "b1" none
    (by decide) ⟨wRow, by decide, by decide⟩

/-! ### Concurrent loads (`fetchBookmarks` and filter changes) -/

/-- The `BookmarksState` record of the hook. -/
structure ProjState where
  bookmarks : List Bmk
  loading : Bool
  error : Option String
deriving DecidableEq, Repr

/-- Projection synchronization state against a fixed table: the currently
desired filter (the hook's `filter` as of the last change) and the
in-flight fetches, each remembering the filter it was started for, in
start order. -/
structure FetchSystem where
  proj : ProjState
  desired : BookmarkFilter
  pending : List BookmarkFilter
deriving DecidableEq, Repr

/-- Interleaving events: `start f` is a filter change to `f` that runs
`fetchBookmarks` (sets `loading`, issues the read); `arrive i ge` is the
response of the i-th in-flight fetch coming back, `ge = some msg`
modelling a gateway error on that read. -/
inductive FetchEv where
  | start (f : BookmarkFilter)
  | arrive (i : Nat) (ge : Option String)
deriving DecidableEq, Repr

/-- One event-loop step over table `db` for user `uid`. `fetchBookmarks`
carries no generation tag, so an arriving response runs its `setState`
unconditionally: success stores the rows of the filter the request was
started with, failure stores the message with an empty list — in either
case without comparing that filter to the currently desired one. -/
def fetchStep (db : List Bmk) (uid : String) (s : FetchSystem) : FetchEv → FetchSystem
  | .start f =>
      { proj := { s.proj with loading := true, error := none },
        desired := f,
        pending := s.pending ++ [f] }
  | .arrive i ge =>
      match s.pending[i]? with
      | none => s
      | some f =>
          { proj :=
              match ge with
              | some msg => { bookmarks := [], loading := false, error := some msg }
              | none =>
                  { bookmarks := runQuery db uid f, loading := false, error := none },
            desired := s.desired,
            pending := s.pending.eraseIdx i }

/-- Run a whole interleaving script. -/
def runFetchScript (db : List Bmk) (uid : String) (s0 : FetchSystem)
    (evs : List FetchEv) : FetchSystem :=
  evs.foldl (fetchStep db uid) s0

/-- Initial hook state for a mounted consumer on filter `f`. -/
def initFetchSystem (f : BookmarkFilter) : FetchSystem :=
  { proj := { bookmarks := [], loading := true, error := none },
    desired := f, pending := [] }

/-- A soft-deleted row, for exercising the `trash` bucket. -/
def wTrashed : Bmk :=
  { wRow with
    id := "b3"
    is_deleted := true
    deleted_at := some "T0"
    created_at := 1 }

/-- **C2 counterexample.** Start a load for `all`, switch to `trash` and
start its load, let the `trash` response arrive first and the stale `all`
response last: the stale response is applied over the newer state, so the
projection ends up holding the `all` rows while the desired ViewSpec is
`trash` — there is no generation tagging discarding it. -/
theorem stale_load_overwrites_cex :
    (runFetchScript [wRow, wTrashed] "u" (initFetchSystem BookmarkFilter.all)
        [FetchEv.start BookmarkFilter.all, FetchEv.start BookmarkFilter.trash,
         FetchEv.arrive 1 none, FetchEv.arrive 0 none]).desired =
      BookmarkFilter.trash
    ∧ (runFetchScript [wRow, wTrashed] "u" (initFetchSystem BookmarkFilter.all)
        [FetchEv.start BookmarkFilter.all, FetchEv.start BookmarkFilter.trash,
         FetchEv.arrive 1 none, FetchEv.arrive 0 none]).proj.bookmarks =
      runQuery [wRow, wTrashed] "u" BookmarkFilter.all
    ∧ runQuery [wRow, wTrashed] "u" BookmarkFilter.all ≠
      runQuery [wRow, wTrashed] "u" BookmarkFilter.trash := by
  decide

/-- **C2 amended.** Responses are applied in arrival order with no
generation check: the state written by an arriving response is the result
of the filter that response was fetched for, and it is independent of the
currently desired ViewSpec — so the last response to arrive wins, whether
or not its ViewSpec is still the desired one. -/
theorem fetch_response_applied_unconditionally (db : List Bmk) (uid : String)
    (s : FetchSystem) (d : BookmarkFilter) (i : Nat) (ge : Option String)
    (f : BookmarkFilter) (hp : s.pending[i]? = some f) :
    (fetchStep db uid s (FetchEv.arrive i ge)).proj =
      (fetchStep db uid { s with desired := d } (FetchEv.arrive i ge)).proj
    ∧ (fetchStep db uid s (FetchEv.arrive i none)).proj.bookmarks =
        runQuery db uid f := by
  constructor
  · simp [fetchStep, hp]
  · simp [fetchStep, hp]

theorem fetch_response_witness :
    (fetchStep [wRow] "u"
        { proj := { bookmarks := [], loading := true, error := none },
          desired := BookmarkFilter.trash,
          pending := [BookmarkFilter.all] }
        (FetchEv.arrive 0 none)).proj.bookmarks =
      runQuery [wRow] "u" BookmarkFilter.all :=
  (fetch_response_applied_unconditionally [wRow] "u"
    { proj := { bookmarks := [], loading := true, error := none },
      desired := BookmarkFilter.trash,
      pending := [BookmarkFilter.all] }
    BookmarkFilter.all 0 none BookmarkFilter.all rfl).2

/-! ### Add-bookmark validation (`validators`, `AddBookmark` submit path) -/

/-- Scheme well-formedness of the WHATWG `URL` constructor: an ASCII
letter followed by letters, digits, plus, minus or dot. -/
def validSchemeChars : List Char → Bool
  | [] => false
  | c :: rest =>
      c.isAlpha && rest.all (fun d => d.isAlpha || d.isDigit || d = '+' || d = '-' || d = '.')

/-- Split a character sequence at its first colon, or fail when there is
none (the URL constructor throws on input with no scheme separator). -/
def splitAtColon : List Char → Option (List Char × List Char)
  | [] => none
  | c :: t =>
      if c = ':' then some ([], t)
      else
        match splitAtColon t with
        | some (pre, post) => some (c :: pre, post)
        | none => none

/-- Shallow model of `new URL(s).protocol`: the text before the first
colon when it is a well-formed scheme (lower-cased, as the constructor
normalises it); `none` when parsing throws. -/
def urlScheme (s : String) : Option (List Char) :=
  match splitAtColon s.data with
  | some (pre, _) => if validSchemeChars pre then some (pre.map Char.toLower) else none
  | none => none

/-- `isValidUrl` of `validators`: the URL parses and its protocol is
`http:` or `https:`. -/
def isValidUrl (url : String) : Bool :=
  match urlScheme url with
  | some p => p == "http".data || p == "https".data
  | none => false

/-- Leading and trailing whitespace removal, as `String.prototype.trim`. -/
def trimChars (l : List Char) : List Char :=
  ((l.dropWhile Char.isWhitespace).reverse.dropWhile Char.isWhitespace).reverse

/-- `isValidTitle` of `validators`: non-blank after trimming, at most 500
characters. -/
def isValidTitle (title : String) : Bool :=
  decide (0 < (trimChars title.data).length) && decide (title.data.length ≤ 500)

/-- The validation record built by `validateBookmark`: per-field messages
and `valid` true exactly when neither field errored. -/
structure BookmarkValidation where
  valid : Bool
  titleError : Option String
  urlError : Option String
deriving DecidableEq, Repr

/-- `validateBookmark` of `validators`. -/
def validateBookmark (title url : String) : BookmarkValidation :=
  let terr : Option String :=
    if !isValidTitle title then some "Title must be between 1 and 500 characters" else none
  let uerr : Option String :=
    if !isValidUrl url then some "Invalid URL format" else none
  { valid := terr.isNone && uerr.isNone, titleError := terr, urlError := uerr }

/-- The client-side add-bookmark path: `AddBookmark.handleSubmit` calls
`validateBookmark` first and stops on failure — surfacing the field
errors without invoking the hook — and only on success calls the hook's
`addBookmark`, which issues the insert for the entered fields. Returns
the validation outcome and the gateway calls issued. -/
def handleAddSubmit (title url : String) : BookmarkValidation × List GatewayCall :=
  let v := validateBookmark title url
  if !v.valid then (v, [])
  else (v, [GatewayCall.insertBookmark title url none])

/-- **C4.** When the title or the url is invalid, the add-bookmark path
fails client-side naming exactly the offending fields, and no gateway
call is issued. -/
theorem addBookmark_validates_before_network (title url : String)
    (hbad : isValidTitle title = false ∨ isValidUrl url = false) :
    (handleAddSubmit title url).2 = []
    ∧ (handleAddSubmit title url).1.valid = false
    ∧ (isValidTitle title = false →
        (handleAddSubmit title url).1.titleError =
          some "Title must be between 1 and 500 characters")
    ∧ (isValidUrl url = false →
        (handleAddSubmit title url).1.urlError = some "Invalid URL format")
    ∧ (isValidTitle title = true → (handleAddSubmit title url).1.titleError = none)
    ∧ (isValidUrl url = true → (handleAddSubmit title url).1.urlError = none) := by
  cases ht : isValidTitle title <;> cases hu : isValidUrl url <;>
    simp_all [handleAddSubmit, validateBookmark]

theorem addBookmark_validation_witness :
    (handleAddSubmit "" "not-a-url").2 = []
    ∧ (handleAddSubmit "" "not-a-url").1.valid = false
    ∧ (handleAddSubmit "" "not-a-url").1.titleError =
        some "Title must be between 1 and 500 characters"
    ∧ (handleAddSubmit "" "not-a-url").1.urlError = some "Invalid URL format" := by
  have h := addBookmark_validates_before_network "" "not-a-url" (Or.inl (by decide))
  exact ⟨h.1, h.2.1, h.2.2.1 (by decide), h.2.2.2.1 (by decide)⟩

/-! ### Change-feed supervisor (`useRealtimeBookmarks` with fallback polling) -/

/-- Supervisor state: whether the channel has confirmed `SUBSCRIBED`
(`realtimeConnectedRef`) and whether the fallback poll interval is
currently scheduled (`pollIntervalRef` non-null). -/
structure SupervisorState where
  connected : Bool
  pollingActive : Bool
deriving DecidableEq, Repr

/-- Events delivered to the mounted supervisor: the four subscription
status transitions of its `subscribe` callback, and the firing of the
connection timeout. -/
inductive RTEvent where
  | subscribed
  | channelError
  | timedOut
  | closed
  | connectionTimeoutFired
deriving DecidableEq, Repr

/-- The bounded wait before treating a missing `SUBSCRIBED` confirmation
as a failure: `setTimeout(..., 10000)`. -/
def connectionTimeoutMs : Nat := 10000

/-- The fallback poll period: `setInterval(..., 5000)` invoking the
reconciliation callback. -/
def pollIntervalMs : Nat := 5000

/-- The status callback plus the connection-timeout handler:
`SUBSCRIBED` marks connected and stops polling; `CHANNEL_ERROR` and
`TIMED_OUT` mark disconnected and start polling; `CLOSED` only marks
disconnected; the timeout starts polling when no confirmation has
arrived by then. -/
def rtStep (s : SupervisorState) : RTEvent → SupervisorState
  | .subscribed => { connected := true, pollingActive := false }
  | .channelError => { connected := false, pollingActive := true }
  | .timedOut => { connected := false, pollingActive := true }
  | .closed => { s with connected := false }
  | .connectionTimeoutFired =>
      if !s.connected then { s with pollingActive := true } else s

/-- Run the supervisor over a delivered event sequence. -/
def rtRun (s : SupervisorState) (evs : List RTEvent) : SupervisorState :=
  evs.foldl rtStep s

/-- State right after activation: not yet confirmed, not yet polling. -/
def rtInit : SupervisorState := { connected := false, pollingActive := false }

lemma rt_never_connected (evs : List RTEvent) (s : SupervisorState)
    (hs : s.connected = false) (hnosub : RTEvent.subscribed ∉ evs) :
    (rtRun s evs).connected = false := by
  induction evs generalizing s with
  | nil => exact hs
  | cons e t ih =>
    have hnot : e ≠ RTEvent.subscribed := fun he => hnosub (he ▸ List.mem_cons_self e t)
    have hnt : RTEvent.subscribed ∉ t := fun hm => hnosub (List.mem_cons_of_mem e hm)
    cases e with
    | subscribed => exact absurd rfl hnot
    | channelError => exact ih _ rfl hnt
    | timedOut => exact ih _ rfl hnt
    | closed => exact ih _ rfl hnt
    | connectionTimeoutFired =>
        refine ih _ ?_ hnt
        simp [rtStep, hs]

lemma rt_polling_persists (evs : List RTEvent) (s : SupervisorState)
    (hp : s.pollingActive = true) (hnosub : RTEvent.subscribed ∉ evs) :
    (rtRun s evs).pollingActive = true := by
  induction evs generalizing s with
  | nil => exact hp
  | cons e t ih =>
    have hnot : e ≠ RTEvent.subscribed := fun he => hnosub (he ▸ List.mem_cons_self e t)
    have hnt : RTEvent.subscribed ∉ t := fun hm => hnosub (List.mem_cons_of_mem e hm)
    cases e with
    | subscribed => exact absurd rfl hnot
    | channelError => exact ih _ rfl hnt
    | timedOut => exact ih _ rfl hnt
    | closed => exact ih _ hp hnt
    | connectionTimeoutFired =>
        refine ih _ ?_ hnt
        simp only [rtStep]
        by_cases hc : s.connected <;> simp [hc, hp]

/-- **C7.** If `SUBSCRIBED` is never confirmed, then once the bounded
10 s connection timeout fires, fallback polling (the fixed 5 s interval
invoking the reconciliation callback) is active and stays active — the
supervisor does not wait indefinitely for confirmation. -/
theorem supervisor_polls_by_timeout (evs : List RTEvent)
    (hto : RTEvent.connectionTimeoutFired ∈ evs)
    (hnosub : RTEvent.subscribed ∉ evs) :
    (rtRun rtInit evs).pollingActive = true
    ∧ connectionTimeoutMs = 10000 ∧ pollIntervalMs = 5000 := by
  refine ⟨?_, rfl, rfl⟩
  have hmain : ∀ (l : List RTEvent) (s : SupervisorState), s.connected = false →
      RTEvent.connectionTimeoutFired ∈ l → RTEvent.subscribed ∉ l →
      (rtRun s l).pollingActive = true := by
    intro l
    induction l with
    | nil => intro s _ hin _; exact absurd hin (List.not_mem_nil _)
    | cons e t ih =>
      intro s hs hin hnosub2
      have hnot : e ≠ RTEvent.subscribed :=
        fun he => hnosub2 (he ▸ List.mem_cons_self e t)
      have hnt : RTEvent.subscribed ∉ t := fun hm => hnosub2 (List.mem_cons_of_mem e hm)
      cases e with
      | subscribed => exact absurd rfl hnot
      | channelError => exact rt_polling_persists t _ rfl hnt
      | timedOut => exact rt_polling_persists t _ rfl hnt
      | closed =>
          rcases List.mem_cons.mp hin with hc | hin2
          · exact absurd hc.symm (by simp)
          · exact ih _ rfl hin2 hnt
      | connectionTimeoutFired =>
          refine rt_polling_persists t _ ?_ hnt
          simp [rtStep, hs]
  exact hmain evs rtInit rfl hto hnosub

theorem supervisor_polls_witness :
    (rtRun rtInit [RTEvent.closed, RTEvent.connectionTimeoutFired]).pollingActive = true
    ∧ connectionTimeoutMs = 10000 ∧ pollIntervalMs = 5000 :=
  supervisor_polls_by_timeout [RTEvent.closed, RTEvent.connectionTimeoutFired]
    (by decide) (by decide)

end BM
